import Mathlib

/-!
Shallow embedding of the CPU-simulation core of this repository.

The embedded code is the `SimulationEngine` class together with the
instruction-set module (`generateCalculatorInstructions`,
`generateTrafficLightInstructions`) and the type definitions of
`types/cpu.ts`.  JS `number` values that hold data are modelled as `ℚ`
(all arithmetic appearing in the simulation on the inputs of interest is
exact, and `DIV` produces a genuine non-integer quotient); addresses and
cycle counters, which are only ever integers, are modelled as `ℕ`.
Optional fields become `Option`; the `number | string` operand union
becomes the tagged type `Operand`.  Wall-clock values (`Date.now()`) and
`Math.random()` appear only inside `addBusTransfer`; they are modelled by
an explicit oracle `env : Nat → String × Nat` giving the id string and
timestamp of the n-th transfer created.  The deferred `setTimeout`
callbacks (bus-transfer deactivation, cache active-flag clearing) are
asynchronous cosmetic timers and are not part of the synchronous `step`
semantics, so they are not modelled.
-/

namespace CpuSim

/-- Opcodes, from the `Opcode` enum of `types/cpu.ts`. -/
inductive Opcode
  | LOAD | STORE | ADD | SUB | MUL | DIV | JMP | JZ | JNZ | HALT | MOV
deriving DecidableEq, Repr, Inhabited

/-- The `number | string` operand union, as a tagged variant. -/
inductive Operand
  | num (n : ℚ)
  | reg (name : String)
deriving DecidableEq, Repr

/-- `Instruction` record of `types/cpu.ts`. -/
structure Instruction where
  id : String
  opcode : Opcode
  operand1 : Option Operand := none
  operand2 : Option Operand := none
  destination : Option String := none
  address : Option Nat := none
  description : String := ""
deriving DecidableEq, Repr

instance : Inhabited Instruction := ⟨{ id := "", opcode := Opcode.HALT }⟩

/-- `Register` record of `types/cpu.ts`. -/
structure Register where
  name : String
  value : ℚ
  active : Bool
  description : String := ""
deriving DecidableEq, Repr

/-- `MemoryLocation` record of `types/cpu.ts`. -/
structure MemoryLocation where
  address : Nat
  value : ℚ
  active : Bool
  used : Bool
deriving DecidableEq, Repr

/-- `CacheLevel` enum. -/
inductive CacheLevel
  | L1 | L2 | L3
deriving DecidableEq, Repr, BEq

/-- The string label of a cache level (the TS enum value), used in bus transfers. -/
def CacheLevel.label : CacheLevel → String
  | .L1 => "L1"
  | .L2 => "L2"
  | .L3 => "L3"

/-- `CacheLine` record of `types/cpu.ts`. -/
structure CacheLine where
  address : Nat
  value : ℚ
  valid : Bool
  dirty : Bool
  lastAccessed : Nat
deriving DecidableEq, Repr

/-- `CacheState` record of `types/cpu.ts` (one cache level). -/
structure CacheState where
  level : CacheLevel
  lines : List CacheLine
  hits : Nat
  misses : Nat
  size : Nat
  activeAddress : Option Nat := none
  isHit : Option Bool := none
deriving DecidableEq, Repr

/-- `BusType` enum. -/
inductive BusType
  | DATA | ADDRESS | CONTROL
deriving DecidableEq, Repr

/-- `BusTransfer` record; `src`/`dst` embed the TS fields `from`/`to`. -/
structure BusTransfer where
  id : String
  type : BusType
  src : String
  dst : String
  value : ℚ
  active : Bool
  timestamp : Nat
deriving DecidableEq, Repr

/-- `InstructionPhase` enum. -/
inductive InstructionPhase
  | FETCH | DECODE | EXECUTE | STORE | IDLE
deriving DecidableEq, Repr

/-- One entry of a step's `registerChanges` list. -/
structure RegisterChange where
  name : String
  oldValue : ℚ
  newValue : ℚ
deriving DecidableEq, Repr

/-- One entry of a step's `memoryChanges` list. -/
structure MemoryChange where
  address : Nat
  oldValue : ℚ
  newValue : ℚ
deriving DecidableEq, Repr

/-- `SimulationStep` record (one history entry). -/
structure SimulationStep where
  cycle : Nat
  phase : InstructionPhase
  instruction : Instruction
  registerChanges : List RegisterChange
  memoryChanges : List MemoryChange
deriving DecidableEq, Repr

/-- `CPUState` record of `types/cpu.ts`. -/
structure CPUState where
  registers : List Register
  memory : List MemoryLocation
  cache : List CacheState
  programCounter : Nat
  instructionRegister : Option Instruction
  currentPhase : InstructionPhase
  clockCycle : Nat
  isRunning : Bool
  isPaused : Bool
deriving DecidableEq, Repr

/-- `ExampleType` enum. -/
inductive ExampleType
  | CALCULATOR | TRAFFIC_LIGHT
deriving DecidableEq, Repr

/-- The `'assembly' | 'machine'` union for the code view. -/
inductive CodeViewMode
  | assembly | machine
deriving DecidableEq, Repr

/-- The calculator operation union `'+' | '-' | '*' | '/'`. -/
inductive CalcOp
  | plus | minus | times | divide
deriving DecidableEq, Repr

/-- The traffic-light state union `'RED' | 'YELLOW' | 'GREEN'`. -/
inductive TrafficState
  | RED | YELLOW | GREEN
deriving DecidableEq, Repr

/-- The example payload passed to `setExample`
(`CalculatorExample | TrafficLightExample`; the fields the engine reads). -/
inductive ExampleData
  | calc (input1 input2 : ℚ) (operation : CalcOp)
  | traffic (currentState : TrafficState) (sensorInput : Bool)
deriving DecidableEq, Repr

/-- `SimulationState` record (the engine-visible fields). -/
structure SimulationState where
  cpu : CPUState
  currentExample : ExampleType
  speed : Nat
  showCodeView : Bool
  codeViewMode : CodeViewMode
  busTransfers : List BusTransfer
  history : List SimulationStep
deriving DecidableEq, Repr

/-- The `SimulationEngine` instance fields beyond `state`. -/
structure Engine where
  state : SimulationState
  instructionIndex : Nat
  currentInstructions : List Instruction
  phaseIndex : Nat
deriving DecidableEq, Repr

/-! ### instructionSet.ts -/

/-- `generateCalculatorInstructions(operand1, operand2, operation)`. -/
def generateCalculatorInstructions (operand1 operand2 : ℚ) (operation : CalcOp) :
    List Instruction :=
  let opcode : Opcode :=
    match operation with
    | .plus => .ADD
    | .minus => .SUB
    | .times => .MUL
    | .divide => .DIV
  [ { id := "load1", opcode := .LOAD, operand1 := some (.num operand1),
      destination := some "R1", description := "Load operand 1 into register R1" },
    { id := "load2", opcode := .LOAD, operand1 := some (.num operand2),
      destination := some "R2", description := "Load operand 2 into register R2" },
    { id := "compute", opcode := opcode, operand1 := some (.reg "R1"),
      operand2 := some (.reg "R2"), destination := some "R3",
      description := "Compute the operation" },
    { id := "store", opcode := .STORE, destination := some "R3",
      address := some 0x100, description := "Store result to memory" } ]

/-- `generateTrafficLightInstructions(currentState, sensorInput)`. -/
def generateTrafficLightInstructions (currentState : TrafficState) (sensorInput : Bool) :
    List Instruction :=
  let stateValue : ℚ :=
    match currentState with
    | .RED => 0
    | .YELLOW => 1
    | .GREEN => 2
  let prefixIns : List Instruction :=
    [ { id := "load_sensor", opcode := .LOAD,
        operand1 := some (.num (if sensorInput then 1 else 0)),
        destination := some "R1", description := "Load sensor input" },
      { id := "load_state", opcode := .LOAD, operand1 := some (.num stateValue),
        destination := some "R2", description := "Load current state" } ]
  let decision : List Instruction :=
    if currentState = .RED && sensorInput then
      [ { id := "set_green", opcode := .MOV, operand1 := some (.num 2),
          destination := some "R3", description := "Set output to GREEN" } ]
    else if currentState = .GREEN then
      [ { id := "set_yellow", opcode := .MOV, operand1 := some (.num 1),
          destination := some "R3", description := "Set output to YELLOW" } ]
    else if currentState = .YELLOW then
      [ { id := "set_red", opcode := .MOV, operand1 := some (.num 0),
          destination := some "R3", description := "Set output to RED" } ]
    else []
  prefixIns ++ decision ++
    [ { id := "store_output", opcode := .STORE, destination := some "R3",
        address := some 0x200, description := "Store output signal" } ]

/-! ### Helpers for the in-place mutations of the TS code

`find` followed by field mutation on the found object updates exactly the
first element of the array satisfying the predicate; `updateFirst`
mirrors that. -/

/-- Replace the first element satisfying `p` by its image under `f`. -/
def updateFirst (p : α → Bool) (f : α → α) : List α → List α
  | [] => []
  | x :: xs => if p x then f x :: xs else x :: updateFirst p f xs

/-- JS truthiness of an optional `number | string` operand:
`undefined`, the number `0` and the empty string are falsy. -/
def truthyOperand : Option Operand → Bool
  | none => false
  | some (.num n) => decide (n ≠ 0)
  | some (.reg s) => decide (s ≠ "")

/-- JS truthiness of an optional string (`undefined` and `""` are falsy). -/
def truthyStr : Option String → Bool
  | none => false
  | some s => decide (s ≠ "")

/-! ### SimulationEngine -/

/-- `createInitialState()`. -/
def createInitialState : SimulationState :=
  { cpu :=
      { registers :=
          [ { name := "R1", value := 0, active := false,
              description := "General purpose register 1" },
            { name := "R2", value := 0, active := false,
              description := "General purpose register 2" },
            { name := "R3", value := 0, active := false,
              description := "General purpose register 3 (accumulator)" },
            { name := "PC", value := 0, active := false,
              description := "Program counter" },
            { name := "IR", value := 0, active := false,
              description := "Instruction register" } ],
        memory := (List.range 256).map fun i =>
          { address := i, value := 0, active := false, used := false },
        cache :=
          [ { level := .L1,
              lines := List.replicate 8
                { address := 0, value := 0, valid := false, dirty := false,
                  lastAccessed := 0 },
              hits := 0, misses := 0, size := 8 },
            { level := .L2,
              lines := List.replicate 16
                { address := 0, value := 0, valid := false, dirty := false,
                  lastAccessed := 0 },
              hits := 0, misses := 0, size := 16 },
            { level := .L3,
              lines := List.replicate 32
                { address := 0, value := 0, valid := false, dirty := false,
                  lastAccessed := 0 },
              hits := 0, misses := 0, size := 32 } ],
        programCounter := 0,
        instructionRegister := none,
        currentPhase := .IDLE,
        clockCycle := 0,
        isRunning := false,
        isPaused := false },
    currentExample := .CALCULATOR,
    speed := 1000,
    showCodeView := true,
    codeViewMode := .assembly,
    busTransfers := [],
    history := [] }

/-- The fresh engine produced by the constructor. -/
def initEngine : Engine :=
  { state := createInitialState, instructionIndex := 0, currentInstructions := [],
    phaseIndex := 0 }

/-- The fixed `phases` array of the engine. -/
def phases : List InstructionPhase :=
  [.FETCH, .DECODE, .EXECUTE, .STORE]

/-- The id/timestamp oracle standing for `Date.now()` and `Math.random()`:
`env n` is the id string and timestamp of the n-th bus transfer created. -/
abbrev Env := Nat → String × Nat

/-- `addBusTransfer(type, from, to, value)`.  The deferred deactivation
callback is a wall-clock timer and is not part of the step semantics. -/
def addBusTransfer (env : Env) (type : BusType) (src dst : String) (value : ℚ)
    (s : SimulationState) : SimulationState :=
  let idts := env s.busTransfers.length
  let tr : BusTransfer :=
    { id := idts.1, type := type, src := src, dst := dst, value := value,
      active := true, timestamp := idts.2 }
  { s with busTransfers := s.busTransfers ++ [tr] }

/-- A line holds `address` and is valid (the hit predicate of both cache scans). -/
def lineHits (address : Nat) (l : CacheLine) : Bool :=
  l.valid && l.address == address

/-- The `reduce`-based LRU selection: first index (and line) minimising
`lastAccessed` among the lines satisfying `p`, earliest wins ties --
exactly `array.filter(p).reduce((oldest, current) =>
current.lastAccessed < oldest.lastAccessed ? current : oldest)`. -/
def lruChoice (p : CacheLine → Bool) (lines : List CacheLine) :
    Option (Nat × CacheLine) :=
  match lines.enum.filter (fun ic => p ic.2) with
  | [] => none
  | c :: cs =>
    some (cs.foldl
      (fun best cur => if cur.2.lastAccessed < best.2.lastAccessed then cur else best) c)

/-- `cache.forEach(c => { c.activeAddress = undefined; c.isHit = undefined })`. -/
def clearCacheActive (caches : List CacheState) : List CacheState :=
  caches.map fun c => { c with activeAddress := none, isHit := none }

/-- The fixed scan order `[CacheLevel.L1, CacheLevel.L2, CacheLevel.L3]`. -/
def cacheLevels : List CacheLevel := [.L1, .L2, .L3]

/-- Mark a cache object as hit at `address` and refresh the matching line's
`lastAccessed` stamp (the body of the hit branch of `checkCache`). -/
def markReadHit (cycle address : Nat) (c2 : CacheState) : CacheState :=
  let ls := updateFirst (lineHits address) (fun l => { l with lastAccessed := cycle }) c2.lines
  { c2 with hits := c2.hits + 1, activeAddress := some address, isHit := some true, lines := ls }

/-- The hit scan of `checkCache`: levels in order, looked up by level;
on the first level whose lines contain a valid line for `address`, bump
hits, set active/hit flags and the line's `lastAccessed`. -/
def scanLevels (cycle address : Nat) :
    List CacheLevel → List CacheState → Option (List CacheState × CacheLevel)
  | [], _ => none
  | lv :: rest, caches =>
    match caches.find? (fun c => c.level == lv) with
    | none => scanLevels cycle address rest caches
    | some c =>
      match c.lines.find? (lineHits address) with
      | none => scanLevels cycle address rest caches
      | some _ =>
        some (updateFirst (fun c2 => c2.level == lv) (markReadHit cycle address) caches, lv)

/-- The read path's victim selection (`checkCache` miss branch): the first
index minimising `lastAccessed` among the currently *valid* lines; index 0
when no line is valid yet. -/
def readEvictIdx (lines : List CacheLine) : Nat :=
  match lruChoice (fun l => l.valid) lines with
  | some ic => ic.1
  | none => 0

/-- The write path's victim selection (`updateCache` miss branch): the
`reduce` runs over **all** lines, valid or not.  (`none` only for an empty
array, where the TS `reduce` would throw.) -/
def writeEvictIdx (lines : List CacheLine) : Option Nat :=
  (lruChoice (fun _ => true) lines).map (fun ic => ic.1)

/-- The miss path of `checkCache` on the L1 cache object: bump misses and
overwrite the LRU line (chosen among the *valid* lines; the first slot if
none is valid) with the address and the backing-memory value (`|| 0`). -/
def allocateLineRead (cycle address : Nat) (memory : List MemoryLocation)
    (c : CacheState) : CacheState :=
  let value : ℚ :=
    match memory.find? (fun m => m.address == address) with
    | some m => if m.value = 0 then 0 else m.value
    | none => 0
  let idx : Nat := readEvictIdx c.lines
  let newLine : CacheLine :=
    { address := address, value := value, valid := true, dirty := false, lastAccessed := cycle }
  { c with
    misses := c.misses + 1
    activeAddress := some address
    isHit := some false
    lines := c.lines.set idx newLine }

/-- `checkCache(address)`, acting on the cache array given the clock cycle
and the backing memory; returns the new cache array and `{level, isHit}`. -/
def checkCacheCore (cycle address : Nat) (memory : List MemoryLocation)
    (caches : List CacheState) : List CacheState × CacheLevel × Bool :=
  let caches := clearCacheActive caches
  match scanLevels cycle address cacheLevels caches with
  | some r => (r.1, r.2, true)
  | none =>
    (updateFirst (fun c => c.level == CacheLevel.L1)
      (allocateLineRead cycle address memory) caches, CacheLevel.L1, false)

/-- Mark a cache object as write-hit at `address`, overwriting the matching
line's value, dirty flag and stamp (the body of the hit branch of `updateCache`). -/
def markWriteHit (cycle address : Nat) (value : ℚ) (c : CacheState) : CacheState :=
  let ls := updateFirst (lineHits address)
    (fun l => { l with value := value, dirty := true, lastAccessed := cycle }) c.lines
  { c with hits := c.hits + 1, activeAddress := some address, isHit := some true, lines := ls }

/-- The hit scan of `updateCache`: the cache *array* in order; on the
first cache whose lines contain a valid line for `address`, overwrite the
line's value, set dirty, bump `lastAccessed` and the hits counter. -/
def scanWrite (cycle address : Nat) (value : ℚ) :
    List CacheState → Option (List CacheState × CacheLevel)
  | [] => none
  | c :: rest =>
    match c.lines.find? (lineHits address) with
    | some _ => some (markWriteHit cycle address value c :: rest, c.level)
    | none =>
      match scanWrite cycle address value rest with
      | some r => some (c :: r.1, r.2)
      | none => none

/-- The miss path of `updateCache` on the L1 cache object: the `reduce`
runs over **all** lines (valid or not); the chosen line is overwritten
dirty.  (On an empty `lines` array the TS `reduce` would throw; L1 always
has 8 lines, and we leave the lines unchanged in that unreachable case.) -/
def allocateLineWrite (cycle address : Nat) (value : ℚ) (c : CacheState) : CacheState :=
  let newLine : CacheLine :=
    { address := address, value := value, valid := true, dirty := true, lastAccessed := cycle }
  let ls :=
    match writeEvictIdx c.lines with
    | some i => c.lines.set i newLine
    | none => c.lines
  { c with
    misses := c.misses + 1
    activeAddress := some address
    isHit := some false
    lines := ls }

/-- `updateCache(address, value)`, acting on the cache array. -/
def updateCacheCore (cycle address : Nat) (value : ℚ) (caches : List CacheState) :
    List CacheState × CacheLevel × Bool :=
  let caches := clearCacheActive caches
  match scanWrite cycle address value caches with
  | some r => (r.1, r.2, true)
  | none =>
    (updateFirst (fun c => c.level == CacheLevel.L1)
      (allocateLineWrite cycle address value) caches, CacheLevel.L1, false)

/-- Functional update of the cache component. -/
def setCache (caches : List CacheState) (s : SimulationState) : SimulationState :=
  { s with cpu := { s.cpu with cache := caches } }

/-- Functional update of the registers component. -/
def setRegisters (regs : List Register) (s : SimulationState) : SimulationState :=
  { s with cpu := { s.cpu with registers := regs } }

/-- Functional update of the memory component. -/
def setMemory (mem : List MemoryLocation) (s : SimulationState) : SimulationState :=
  { s with cpu := { s.cpu with memory := mem } }

/-- The `checkCache` method on the whole state. -/
def checkCache (s : SimulationState) (address : Nat) :
    SimulationState × CacheLevel × Bool :=
  let r := checkCacheCore s.cpu.clockCycle address s.cpu.memory s.cpu.cache
  (setCache r.1 s, r.2.1, r.2.2)

/-- The `updateCache` method on the whole state. -/
def updateCache (s : SimulationState) (address : Nat) (value : ℚ) :
    SimulationState × CacheLevel × Bool :=
  let r := updateCacheCore s.cpu.clockCycle address value s.cpu.cache
  (setCache r.1 s, r.2.1, r.2.2)

/-- Append one entry to a step's `registerChanges`. -/
def pushRegChange (name : String) (oldValue newValue : ℚ) (st : SimulationStep) :
    SimulationStep :=
  { st with registerChanges :=
      st.registerChanges ++ [{ name := name, oldValue := oldValue, newValue := newValue }] }

/-- Append one entry to a step's `memoryChanges`. -/
def pushMemChange (address : Nat) (oldValue newValue : ℚ) (st : SimulationStep) :
    SimulationStep :=
  { st with memoryChanges :=
      st.memoryChanges ++ [{ address := address, oldValue := oldValue, newValue := newValue }] }

/-- `executeFetch(instruction, step)`. -/
def executeFetch (env : Env) (ins : Instruction) (s : SimulationState)
    (st : SimulationStep) : SimulationState × SimulationStep :=
  let s := { s with cpu :=
    { s.cpu with instructionRegister := some ins, programCounter := s.cpu.programCounter + 1 } }
  let r : SimulationState × SimulationStep :=
    match s.cpu.registers.find? (fun r => r.name == "PC") with
    | some pcReg =>
      let st := pushRegChange "PC" pcReg.value (s.cpu.programCounter : ℚ) st
      let regs := updateFirst (fun r => r.name == "PC")
        (fun r => { r with value := (s.cpu.programCounter : ℚ), active := true })
        s.cpu.registers
      (setRegisters regs s, st)
    | none => (s, st)
  let s := addBusTransfer env .ADDRESS "PC" "Memory" (r.1.cpu.programCounter : ℚ) r.1
  let s := addBusTransfer env .DATA "Memory" "IR" 0 s
  (s, r.2)

/-- `executeDecode(instruction, step)`. -/
def executeDecode (_ins : Instruction) (s : SimulationState) (st : SimulationStep) :
    SimulationState × SimulationStep :=
  let regs := updateFirst (fun r => r.name == "IR") (fun r => { r with active := true })
    s.cpu.registers
  (setRegisters regs s, st)

/-- `executeExecute(instruction, step)`: the opcode dispatch. -/
def executeExecute (env : Env) (ins : Instruction) (s : SimulationState)
    (st : SimulationStep) : SimulationState × SimulationStep :=
  match ins.opcode with
  | .LOAD =>
    match ins.operand1, ins.destination with
    | some (.num v), some dest =>
      if dest == "" then (s, st)
      else
        match s.cpu.registers.find? (fun r => r.name == dest) with
        | none => (s, st)
        | some reg =>
          match ins.address with
          | some address =>
            let cc := checkCache s address
            let s := cc.1
            let memLoc := s.cpu.memory.find? (fun m => m.address == address)
            let memValue : ℚ :=
              match memLoc with
              | some m => if m.value = 0 then v else m.value
              | none => v
            let mem := updateFirst (fun m => m.address == address)
              (fun m => { m with used := true }) s.cpu.memory
            let s := setMemory mem s
            let st := pushRegChange dest reg.value memValue st
            let regs := updateFirst (fun r => r.name == dest)
              (fun r => { r with value := memValue, active := true }) s.cpu.registers
            let s := setRegisters regs s
            let s :=
              if cc.2.2 then
                addBusTransfer env .DATA cc.2.1.label dest memValue s
              else
                addBusTransfer env .DATA cc.2.1.label dest memValue
                  (addBusTransfer env .DATA "Memory" cc.2.1.label memValue s)
            (s, st)
          | none =>
            let st := pushRegChange dest reg.value v st
            let regs := updateFirst (fun r => r.name == dest)
              (fun r => { r with value := v, active := true }) s.cpu.registers
            let s := setRegisters regs s
            (addBusTransfer env .DATA "CPU" dest v s, st)
    | _, _ => (s, st)
  | .STORE =>
    match ins.destination with
    | some dest =>
      if dest == "" then (s, st)
      else
        match s.cpu.registers.find? (fun r => r.name == dest), ins.address with
        | some reg, some address =>
          match s.cpu.memory.find? (fun m => m.address == address) with
          | none => (s, st)
          | some memLoc =>
            let st := pushMemChange memLoc.address memLoc.value reg.value st
            let mem := updateFirst (fun m => m.address == address)
              (fun m => { m with value := reg.value, active := true, used := true })
              s.cpu.memory
            let s := setMemory mem s
            let uc := updateCache s address reg.value
            let s := uc.1
            let s := addBusTransfer env .ADDRESS "CPU" "Memory" (address : ℚ) s
            let s :=
              if uc.2.2 then
                addBusTransfer env .DATA dest uc.2.1.label reg.value s
              else
                addBusTransfer env .DATA uc.2.1.label "Memory" reg.value
                  (addBusTransfer env .DATA dest uc.2.1.label reg.value s)
            (s, st)
        | _, _ => (s, st)
    | none => (s, st)
  | .ADD | .SUB | .MUL | .DIV =>
    if truthyOperand ins.operand1 && truthyOperand ins.operand2 &&
        truthyStr ins.destination then
      let destName := ins.destination.getD ""
      let name1 := match ins.operand1 with | some (.reg n) => n | _ => "R1"
      let name2 := match ins.operand2 with | some (.reg n) => n | _ => "R2"
      match s.cpu.registers.find? (fun r => r.name == name1),
            s.cpu.registers.find? (fun r => r.name == name2),
            s.cpu.registers.find? (fun r => r.name == destName) with
      | some reg1, some reg2, some destReg =>
        let val1 := match ins.operand1 with | some (.num n) => n | _ => reg1.value
        let val2 := match ins.operand2 with | some (.num n) => n | _ => reg2.value
        let result : ℚ :=
          match ins.opcode with
          | .ADD => val1 + val2
          | .SUB => val1 - val2
          | .MUL => val1 * val2
          | .DIV => if val2 ≠ 0 then val1 / val2 else 0
          | _ => 0
        let st := pushRegChange destName destReg.value result st
        let regs := updateFirst (fun r => r.name == destName)
          (fun r => { r with value := result, active := true }) s.cpu.registers
        let regs := updateFirst (fun r => r.name == name1)
          (fun r => { r with active := true }) regs
        let regs := updateFirst (fun r => r.name == name2)
          (fun r => { r with active := true }) regs
        let s := setRegisters regs s
        let s := addBusTransfer env .DATA name1 "ALU" val1 s
        let s := addBusTransfer env .DATA name2 "ALU" val2 s
        let s := addBusTransfer env .CONTROL "ControlUnit" "ALU" 0 s
        let s := addBusTransfer env .DATA "ALU" destName result s
        (s, st)
      | _, _, _ => (s, st)
    else (s, st)
  | .MOV =>
    match ins.operand1, ins.destination with
    | some (.num v), some dest =>
      if dest == "" then (s, st)
      else
        match s.cpu.registers.find? (fun r => r.name == dest) with
        | none => (s, st)
        | some reg =>
          let st := pushRegChange dest reg.value v st
          let regs := updateFirst (fun r => r.name == dest)
            (fun r => { r with value := v, active := true }) s.cpu.registers
          (setRegisters regs s, st)
    | _, _ => (s, st)
  | _ => (s, st)

/-- `executeStore(instruction, step)` (the STORE *phase*).  The deferred
cache active-flag clearing runs on a wall-clock timer and is not part of
the synchronous step. -/
def executeStore (_ins : Instruction) (s : SimulationState) (st : SimulationStep) :
    SimulationState × SimulationStep :=
  let regs := s.cpu.registers.map fun r =>
    if r.name != "PC" && r.name != "IR" then { r with active := false } else r
  let s := setRegisters regs s
  let mem := s.cpu.memory.map fun m => { m with active := false }
  (setMemory mem s, st)

/-- `step()`: advance one phase of one instruction; returns the new engine
and the boolean result. -/
def step (env : Env) (e : Engine) : Engine × Bool :=
  if e.currentInstructions.length = 0 then (e, false)
  else if e.currentInstructions.length ≤ e.instructionIndex then (e, false)
  else
    let ins := e.currentInstructions.getD e.instructionIndex default
    let phase := phases.getD e.phaseIndex .IDLE
    let s := { e.state with cpu :=
      { e.state.cpu with currentPhase := phase, clockCycle := e.state.cpu.clockCycle + 1 } }
    let st : SimulationStep :=
      { cycle := s.cpu.clockCycle, phase := phase, instruction := ins,
        registerChanges := [], memoryChanges := [] }
    let r :=
      match phase with
      | .FETCH => executeFetch env ins s st
      | .DECODE => executeDecode ins s st
      | .EXECUTE => executeExecute env ins s st
      | .STORE => executeStore ins s st
      | .IDLE => (s, st)
    let s := { r.1 with history := r.1.history ++ [r.2] }
    let pi := e.phaseIndex + 1
    let next : Nat × Nat :=
      if phases.length ≤ pi then (0, e.instructionIndex + 1)
      else (pi, e.instructionIndex)
    ({ e with state := s, phaseIndex := next.1, instructionIndex := next.2 },
     decide (next.2 < e.currentInstructions.length))

/-- `setExample(exampleType, exampleData)`.  When the payload's variant
does not match the example type, the TS cast reads undefined fields; that
type confusion never occurs in the drivers and is modelled as keeping the
previous instruction list (as the no-payload call does). -/
def setExample (e : Engine) (exampleType : ExampleType)
    (exampleData : Option ExampleData) : Engine :=
  let instructions :=
    match exampleType, exampleData with
    | .CALCULATOR, some (.calc a b op) => generateCalculatorInstructions a b op
    | .TRAFFIC_LIGHT, some (.traffic ts sensor) =>
      generateTrafficLightInstructions ts sensor
    | _, _ => e.currentInstructions
  let s := { e.state with currentExample := exampleType }
  let cpu := { s.cpu with
    programCounter := 0
    instructionRegister := none
    currentPhase := InstructionPhase.IDLE
    clockCycle := 0
    memory := s.cpu.memory.map fun m => { m with used := false, active := false } }
  let s := { s with cpu := cpu, busTransfers := [], history := [] }
  { e with
    state := s
    instructionIndex := 0
    phaseIndex := 0
    currentInstructions := instructions }

/-- `reset()`. -/
def reset (_e : Engine) : Engine := initEngine

/-- Iterate `step` n times (the caller-driven replay loop). -/
def runSteps (env : Env) : Nat → Engine → Engine
  | 0, e => e
  | n + 1, e => runSteps env n (step env e).1

/-- A fixed oracle (replays at a different wall-clock time use another one). -/
def canonEnv : Env := fun _ => ("", 0)

/-- The engine after loading the visualization driver's `5 + 3` calculator
example onto a fresh engine. -/
def calcEngine : Engine :=
  setExample initEngine .CALCULATOR (some (.calc 5 3 .plus))


/-! ## Basic facts about the update helpers -/

theorem updateFirst_nil (p : α → Bool) (f : α → α) : updateFirst p f [] = [] := rfl

theorem updateFirst_cons (p : α → Bool) (f : α → α) (x : α) (xs : List α) :
    updateFirst p f (x :: xs) =
      if p x then f x :: xs else x :: updateFirst p f xs := rfl

/-- `find` + in-place mutation, queried with the same predicate: the first
match is replaced by its image (when `f` preserves the predicate). -/
theorem find?_updateFirst_same (p : α → Bool) (f : α → α) (l : List α)
    (hf : ∀ x, p (f x) = p x) :
    (updateFirst p f l).find? p = (l.find? p).map f := by
  induction l with
  | nil => rfl
  | cons x xs ih =>
    by_cases hx : p x = true
    · simp [updateFirst_cons, hx, List.find?_cons, hf]
    · simp only [Bool.not_eq_true] at hx
      simp [updateFirst_cons, hx, List.find?_cons, ih]

/-- `find` + in-place mutation does not disturb queries by a disjoint
predicate (when `f` also preserves that predicate). -/
theorem find?_updateFirst_disj (p q : α → Bool) (f : α → α) (l : List α)
    (hdisj : ∀ x, p x = true → q x = false) (hf : ∀ x, q (f x) = q x) :
    (updateFirst p f l).find? q = l.find? q := by
  induction l with
  | nil => rfl
  | cons x xs ih =>
    by_cases hx : p x = true
    · simp [updateFirst_cons, hx, List.find?_cons, hf, hdisj x hx]
    · simp only [Bool.not_eq_true] at hx
      simp [updateFirst_cons, hx, List.find?_cons, ih]

/-- `updateFirst` leaves the list unchanged when nothing matches. -/
theorem updateFirst_of_forall_false (p : α → Bool) (f : α → α) (l : List α)
    (h : ∀ x ∈ l, p x = false) : updateFirst p f l = l := by
  induction l with
  | nil => rfl
  | cons x xs ih =>
    have hx := h x (List.mem_cons_self x xs)
    simp only [updateFirst_cons, hx, Bool.false_eq_true, if_false]
    rw [ih]
    intro y hy
    exact h y (List.mem_cons_of_mem x hy)

/-! ## Projection lemmas for the state helpers -/

theorem setRegisters_cpu_registers (regs : List Register) (s : SimulationState) :
    (setRegisters regs s).cpu.registers = regs := rfl

theorem setMemory_cpu_registers (mem : List MemoryLocation) (s : SimulationState) :
    (setMemory mem s).cpu.registers = s.cpu.registers := rfl

theorem setCache_cpu_registers (c : List CacheState) (s : SimulationState) :
    (setCache c s).cpu.registers = s.cpu.registers := rfl

theorem addBusTransfer_cpu (env : Env) (t : BusType) (a b : String) (v : ℚ)
    (s : SimulationState) : (addBusTransfer env t a b v s).cpu = s.cpu := rfl

theorem checkCache_cpu_memory (s : SimulationState) (address : Nat) :
    (checkCache s address).1.cpu.memory = s.cpu.memory := rfl

theorem checkCache_cpu_registers (s : SimulationState) (address : Nat) :
    (checkCache s address).1.cpu.registers = s.cpu.registers := rfl

theorem updateCache_cpu_memory (s : SimulationState) (address : Nat) (v : ℚ) :
    (updateCache s address v).1.cpu.memory = s.cpu.memory := rfl

theorem updateCache_cpu_registers (s : SimulationState) (address : Nat) (v : ℚ) :
    (updateCache s address v).1.cpu.registers = s.cpu.registers := rfl

/-! ## C5: the two eviction rules -/

/-- An L1 state separating the two victim-selection rules: one valid line
with stamp 1 followed by an invalid line with stamp 0. -/
def probeLines : List CacheLine :=
  [ { address := 1, value := 0, valid := true, dirty := false, lastAccessed := 1 },
    { address := 0, value := 0, valid := false, dirty := false, lastAccessed := 0 } ]

/-- C5 (counterexample): on `probeLines` the read path (`checkCache`)
would evict line 0 — the only valid line — while the write path
(`updateCache`) picks line 1, an *invalid* line with a smaller stamp: the
two paths do not evict the same line, and `updateCache` does not follow
the valid-lines-only rule. -/
theorem C5_counterexample :
    readEvictIdx probeLines = 0 ∧ writeEvictIdx probeLines = some 1 := by
  constructor <;> rfl

/-- C5 (amended): `updateCache`'s victim selection minimises
`lastAccessed` over **all** lines, valid or not, whereas `checkCache`
filters to the valid lines first; the two rules do agree whenever every
line of L1 is valid (and in particular on any full L1). -/
theorem C5_evict_agree (lines : List CacheLine)
    (hv : ∀ l ∈ lines, l.valid = true) (hne : lines ≠ []) :
    writeEvictIdx lines = some (readEvictIdx lines) := by
  have hfilter : lines.enum.filter (fun ic => ic.2.valid) = lines.enum := by
    refine List.filter_eq_self.mpr ?_
    intro ic hic
    have h2 : ic.2 ∈ lines := by
      have := List.mem_map_of_mem Prod.snd hic
      rwa [List.enum_map_snd] at this
    exact hv ic.2 h2
  have hfilterT : lines.enum.filter (fun _ => true) = lines.enum :=
    List.filter_eq_self.mpr (fun _ _ => rfl)
  have henum : lines.enum ≠ [] := by
    intro h
    apply hne
    have := congrArg (List.map Prod.snd) h
    rwa [List.enum_map_snd] at this
  unfold writeEvictIdx readEvictIdx lruChoice
  rw [hfilter, hfilterT]
  cases h : lines.enum with
  | nil => exact absurd h henum
  | cons c cs => rfl

/-- C5 witness: the agreement theorem applied to a fully valid two-line L1. -/
theorem C5_evict_agree_witness :
    writeEvictIdx
        [ { address := 1, value := 0, valid := true, dirty := false, lastAccessed := 5 },
          { address := 2, value := 0, valid := true, dirty := false, lastAccessed := 3 } ] =
      some (readEvictIdx
        [ { address := 1, value := 0, valid := true, dirty := false, lastAccessed := 5 },
          { address := 2, value := 0, valid := true, dirty := false, lastAccessed := 3 } ]) :=
  C5_evict_agree _ (by decide) (by decide)

/-! ## C10: falsy numeric literal 0 disables the arithmetic opcodes -/

/-- C10: an ADD/SUB/MUL/DIV instruction one of whose operands is the
numeric literal `0` is skipped entirely by the EXECUTE phase — the JS
guard `if (operand1 && operand2 && destination)` treats the number 0 as
falsy — so the state and the step record are returned unchanged even
though both operands and the destination are present. -/
theorem C10_falsy_zero_guard (env : Env) (s : SimulationState) (st : SimulationStep)
    (i dsc : String) (o1 o2 : Operand) (d : String) (a : Option Nat) (op : Opcode)
    (hop : op = .ADD ∨ op = .SUB ∨ op = .MUL ∨ op = .DIV)
    (hzero : o1 = .num 0 ∨ o2 = .num 0) :
    executeExecute env
      { id := i, opcode := op, operand1 := some o1, operand2 := some o2,
        destination := some d, address := a, description := dsc } s st = (s, st) := by
  have hguard : (truthyOperand (some o1) && truthyOperand (some o2) &&
      truthyStr (some d)) = false := by
    rcases hzero with h | h <;> subst h <;> simp [truthyOperand]
  rcases hop with h | h | h | h <;> subst h <;>
    simp [executeExecute, hguard]

/-- C10 witness: `ADD 0, 5 → R3` leaves a concrete state untouched. -/
theorem C10_falsy_zero_guard_witness :
    executeExecute canonEnv
      { id := "a", opcode := .ADD, operand1 := some (.num 0),
        operand2 := some (.num 5), destination := some "R3", address := none,
        description := "" } createInitialState
      { cycle := 1, phase := .EXECUTE,
        instruction := { id := "a", opcode := .ADD }, registerChanges := [],
        memoryChanges := [] } =
      (createInitialState,
       { cycle := 1, phase := .EXECUTE,
         instruction := { id := "a", opcode := .ADD }, registerChanges := [],
         memoryChanges := [] }) :=
  C10_falsy_zero_guard canonEnv _ _ "a" "" _ _ "R3" none .ADD (Or.inl rfl) (Or.inl rfl)


/-! ## C1: the end-to-end 5 + 3 scenario -/

set_option maxRecDepth 100000 in
/-- C1: after loading the calculator program for `5 + 3` and stepping 16
times, R3 does hold 8, but the concluding `STORE R3 → 0x100` is silently
dropped: the memory bank has addresses 0..255 only, `0x100 = 256` matches
no cell, so the `find` in the STORE branch fails and no memory write (nor
cache update) happens — every memory cell still holds 0. -/
theorem C1_run :
    (((runSteps canonEnv 16 calcEngine).state.cpu.registers.find?
        (fun r => r.name == "R3")).map (fun r => r.value) = some 8) ∧
    ((runSteps canonEnv 16 calcEngine).state.cpu.memory.find?
        (fun m => m.address == 0x100) = none) ∧
    ((runSteps canonEnv 16 calcEngine).state.cpu.memory.all
        (fun m => m.value == 0) = true) := by
  refine ⟨?_, ?_, ?_⟩ <;> with_unfolding_all rfl

/-! ## C2: how many calls to step() return true -/

/-- C2 (counterexample): for the loaded 4-instruction calculator program
(N = 4), the claim says the first 4×N = 16 calls return true; in fact the
16th call — the one that executes the final STORE phase — already returns
false, because `step()` first advances the cursor past the end and only
then compares it with the length. -/
theorem C2_counterexample :
    calcEngine.currentInstructions.length = 4 ∧
    (step canonEnv (runSteps canonEnv 15 calcEngine)).2 = false := by
  refine ⟨rfl, ?_⟩
  with_unfolding_all rfl

/-- The cursor position of an engine, phases counted: 4·instruction + phase. -/
def pos (e : Engine) : Nat := 4 * e.instructionIndex + e.phaseIndex

/-- The cursor states arising while running a loaded program: the phase
index is in range and the instruction index is past the end only with the
phase reset to 0. -/
def StepInv (N : Nat) (e : Engine) : Prop :=
  e.currentInstructions.length = N ∧ e.phaseIndex < 4 ∧
    (e.instructionIndex < N ∨ (e.instructionIndex = N ∧ e.phaseIndex = 0))

/-- `step()` with no program loaded is a no-op returning false. -/
theorem step_of_empty (env : Env) (e : Engine)
    (h0 : e.currentInstructions.length = 0) : step env e = (e, false) := by
  simp only [step]
  rw [if_pos h0]

/-- `step()` with the cursor past the last instruction is a no-op
returning false. -/
theorem step_of_done (env : Env) (e : Engine)
    (h0 : ¬ e.currentInstructions.length = 0)
    (h1 : e.currentInstructions.length ≤ e.instructionIndex) :
    step env e = (e, false) := by
  simp only [step]
  rw [if_neg h0, if_pos h1]

/-- An active `step()` at the last phase: the phase index wraps to 0, the
instruction index advances, and the returned flag compares the advanced
index with the program length. -/
theorem step_adv_wrap (env : Env) (e : Engine)
    (h0 : ¬ e.currentInstructions.length = 0)
    (h1 : ¬ e.currentInstructions.length ≤ e.instructionIndex)
    (h3 : phases.length ≤ e.phaseIndex + 1) :
    (step env e).1.phaseIndex = 0 ∧
      (step env e).1.instructionIndex = e.instructionIndex + 1 ∧
      (step env e).2 =
        decide (e.instructionIndex + 1 < e.currentInstructions.length) := by
  simp only [step]
  rw [if_neg h0, if_neg h1, if_pos h3]
  exact ⟨rfl, rfl, rfl⟩

/-- An active `step()` at an inner phase: the phase index advances, the
instruction index stays, and the returned flag compares the unchanged
index with the program length. -/
theorem step_adv_nowrap (env : Env) (e : Engine)
    (h0 : ¬ e.currentInstructions.length = 0)
    (h1 : ¬ e.currentInstructions.length ≤ e.instructionIndex)
    (h3 : ¬ phases.length ≤ e.phaseIndex + 1) :
    (step env e).1.phaseIndex = e.phaseIndex + 1 ∧
      (step env e).1.instructionIndex = e.instructionIndex ∧
      (step env e).2 =
        decide (e.instructionIndex < e.currentInstructions.length) := by
  simp only [step]
  rw [if_neg h0, if_neg h1, if_neg h3]
  exact ⟨rfl, rfl, rfl⟩

theorem step_keeps_instructions_aux (env : Env) (e : Engine) :
    (step env e).1.currentInstructions = e.currentInstructions := by
  simp only [step]
  split
  · rfl
  · split
    · rfl
    · split <;> rfl

theorem phases_length : phases.length = 4 := rfl

theorem step_behavior (env : Env) (e : Engine) (N : Nat) (h : StepInv N e) :
    StepInv N (step env e).1 ∧ pos (step env e).1 = min (pos e + 1) (4 * N) ∧
      (step env e).2 = decide (pos e + 1 < 4 * N) := by
  obtain ⟨hN, hp, hi⟩ := h
  have hkeep := step_keeps_instructions_aux env e
  by_cases h0 : e.currentInstructions.length = 0
  · have hstep := step_of_empty env e h0
    rw [hstep]
    have hNz : N = 0 := by omega
    rcases hi with hi | ⟨hi1, hi2⟩
    · exact absurd hi (by omega)
    · refine ⟨⟨hN, hp, Or.inr ⟨hi1, hi2⟩⟩, ?_, ?_⟩
      · simp only [pos, hi1, hi2, hNz]
        omega
      · have hlt : ¬ (pos e + 1 < 4 * N) := by simp only [pos]; omega
        simp [hlt]
  · by_cases h1 : e.currentInstructions.length ≤ e.instructionIndex
    · have hstep := step_of_done env e h0 h1
      rw [hstep]
      have hiN : e.instructionIndex = N ∧ e.phaseIndex = 0 := by
        rcases hi with hi | ⟨hi1, hi2⟩
        · omega
        · exact ⟨hi1, hi2⟩
      refine ⟨⟨hN, hp, hi⟩, ?_, ?_⟩
      · simp only [pos, hiN.1, hiN.2]
        omega
      · have hlt : ¬ (pos e + 1 < 4 * N) := by
          simp only [pos, hiN.1, hiN.2]
          omega
        simp [hlt]
    · have hlt : e.instructionIndex < N := by omega
      by_cases h3 : phases.length ≤ e.phaseIndex + 1
      · obtain ⟨hA, hB, hC⟩ := step_adv_wrap env e h0 h1 h3
        have hp3 : e.phaseIndex = 3 := by
          rw [phases_length] at h3
          omega
        refine ⟨⟨by rw [hkeep, hN], by rw [hA]; omega, by rw [hA, hB]; omega⟩, ?_, ?_⟩
        · simp only [pos]
          rw [hA, hB]
          omega
        · rw [hC, hN, decide_eq_decide]
          simp only [pos]
          omega
      · obtain ⟨hA, hB, hC⟩ := step_adv_nowrap env e h0 h1 h3
        have hp3 : e.phaseIndex + 1 < 4 := by
          rw [phases_length] at h3
          omega
        refine ⟨⟨by rw [hkeep, hN], by rw [hA]; omega, by rw [hA, hB]; omega⟩, ?_, ?_⟩
        · simp only [pos]
          rw [hA, hB]
          omega
        · rw [hC, hN, decide_eq_decide]
          simp only [pos]
          omega

theorem step_keeps_instructions (env : Env) (e : Engine) :
    (step env e).1.currentInstructions = e.currentInstructions := by
  simp only [step]
  by_cases h0 : e.currentInstructions.length = 0
  · simp [h0]
  · by_cases h1 : e.currentInstructions.length ≤ e.instructionIndex <;> simp [h0, h1]

theorem runSteps_behavior (env : Env) (k : Nat) :
    ∀ (e : Engine) (N : Nat), StepInv N e →
      StepInv N (runSteps env k e) ∧
        pos (runSteps env k e) = min (pos e + k) (4 * N) ∧
        (runSteps env k e).currentInstructions = e.currentInstructions := by
  induction k with
  | zero =>
    intro e N h
    refine ⟨h, ?_, rfl⟩
    simp only [runSteps, pos]
    obtain ⟨hN, hp, hi⟩ := h
    omega
  | succ k ih =>
    intro e N h
    obtain ⟨hInv, hpos, _⟩ := step_behavior env e N h
    obtain ⟨hInv2, hpos2, hkeep⟩ := ih (step env e).1 N hInv
    refine ⟨hInv2, ?_, ?_⟩
    · show pos (runSteps env k (step env e).1) = _
      rw [hpos2, hpos]
      omega
    · show (runSteps env k (step env e).1).currentInstructions = _
      rw [hkeep, step_keeps_instructions]

/-- C2 (amended): for a just-loaded program of N ≥ 1 instructions
(cursor at instruction 0, phase 0), the k-th call to `step()` (k ≥ 1)
returns true exactly when k < 4·N: the first 4·N − 1 calls return true,
and the 4·N-th call — which still performs the final STORE phase — and
every later call return false. -/
theorem C2_step_returns (env : Env) (e : Engine)
    (h0 : e.phaseIndex = 0) (h1 : e.instructionIndex = 0)
    (hN : 1 ≤ e.currentInstructions.length) (k : Nat) :
    (step env (runSteps env k e)).2 =
      decide (k + 1 < 4 * e.currentInstructions.length) := by
  set N := e.currentInstructions.length with hNdef
  have hInv : StepInv N e := ⟨rfl, by omega, Or.inl (by omega)⟩
  obtain ⟨hInv2, hpos2, _⟩ := runSteps_behavior env k e N hInv
  obtain ⟨_, _, hret⟩ := step_behavior env (runSteps env k e) N hInv2
  rw [hret, hpos2]
  have hpe : pos e = 0 := by simp [pos, h0, h1]
  rw [hpe]
  rw [decide_eq_decide]
  omega

/-- C2 witness: the first call on the loaded calculator program returns
true (= decide (1 < 16)). -/
theorem C2_step_returns_witness :
    (step canonEnv (runSteps canonEnv 0 calcEngine)).2 =
      decide (0 + 1 < 4 * calcEngine.currentInstructions.length) :=
  C2_step_returns canonEnv calcEngine rfl rfl (by decide) 0

/-! ## C4: the arithmetic table -/

/-- A state with R1 = 10 and R2 = 3 (all other registers fresh). -/
def divState : SimulationState :=
  setRegisters
    (updateFirst (fun r => r.name == "R2") (fun r => { r with value := 3 })
      (updateFirst (fun r => r.name == "R1") (fun r => { r with value := 10 })
        createInitialState.cpu.registers))
    createInitialState

/-- `DIV R1, R2 → R3`. -/
def divIns : Instruction :=
  { id := "d", opcode := .DIV, operand1 := some (.reg "R1"),
    operand2 := some (.reg "R2"), destination := some "R3" }

/-- An empty EXECUTE-phase step record for an instruction. -/
def emptyStep (ins : Instruction) : SimulationStep :=
  { cycle := 1, phase := .EXECUTE, instruction := ins, registerChanges := [],
    memoryChanges := [] }

/-- C4 (counterexample): executing `DIV` with resolved operand values 10
and 3 sets the destination to the exact JS quotient `10 / 3`, not to the
floor 3 the claim states: the EXECUTE phase of the simulation engine
divides with plain `/` and never floors. -/
theorem C4_div_not_floor :
    (((executeExecute canonEnv divIns divState (emptyStep divIns)).1.cpu.registers.find?
        (fun r => r.name == "R3")).map (fun r => r.value) = some (10 / 3 : ℚ)) ∧
    (10 / 3 : ℚ) ≠ 3 := by
  refine ⟨?_, by norm_num⟩
  with_unfolding_all rfl

/-! ## C8: what setExample resets and what it leaves alone -/

/-- An engine whose memory cell 0 carries the sticky `used` flag. -/
def usedEngine : Engine :=
  let mem := updateFirst (fun m => m.address == 0) (fun m => { m with used := true })
    initEngine.state.cpu.memory
  { initEngine with state := setMemory mem initEngine.state }

/-- C8 (counterexample): loading a new program through `setExample` *does*
clear the sticky memory `used` flag — contradicting the claim that only a
full reset clears it. -/
theorem C8_counterexample :
    ((usedEngine.state.cpu.memory.find? (fun m => m.address == 0)).map
        (fun m => m.used) = some true) ∧
    (((setExample usedEngine .CALCULATOR (some (.calc 1 2 .plus))).state.cpu.memory.find?
        (fun m => m.address == 0)).map (fun m => m.used) = some false) := by
  refine ⟨?_, ?_⟩ <;> with_unfolding_all rfl

/-- C8 (amended): `setExample` resets the cursor to instruction 0 / phase
0, zeroes the CPU-level counters (PC, IR, phase, cycle), empties the bus
log and the history, and replaces the instruction list when a matching
payload is given; it leaves the registers, the cache and the memory
*values* unchanged — but it also clears every memory cell's sticky `used`
flag (and its `active` flag), which a claim reader would expect only from
a full `reset()`. -/
theorem C8_setExample_frame (e : Engine) (ty : ExampleType) (d : Option ExampleData) :
    ((setExample e ty d).state.cpu.registers = e.state.cpu.registers) ∧
    ((setExample e ty d).state.cpu.cache = e.state.cpu.cache) ∧
    ((setExample e ty d).state.cpu.memory =
      e.state.cpu.memory.map fun m => { m with used := false, active := false }) ∧
    ((setExample e ty d).state.cpu.programCounter = 0) ∧
    ((setExample e ty d).state.cpu.instructionRegister = none) ∧
    ((setExample e ty d).state.cpu.currentPhase = .IDLE) ∧
    ((setExample e ty d).state.cpu.clockCycle = 0) ∧
    ((setExample e ty d).state.busTransfers = []) ∧
    ((setExample e ty d).state.history = []) ∧
    ((setExample e ty d).instructionIndex = 0) ∧
    ((setExample e ty d).phaseIndex = 0) ∧
    (∀ a b op, (setExample e .CALCULATOR (some (.calc a b op))).currentInstructions =
      generateCalculatorInstructions a b op) ∧
    (∀ ts sen, (setExample e .TRAFFIC_LIGHT (some (.traffic ts sen))).currentInstructions =
      generateTrafficLightInstructions ts sen) := by
  refine ⟨rfl, rfl, rfl, rfl, rfl, rfl, rfl, rfl, rfl, rfl, rfl, ?_, ?_⟩
  · intro a b op
    rfl
  · intro ts sen
    rfl

/-! ## Register-lookup helper lemmas -/

/-- A register update keyed on one name cannot disturb a lookup keyed on a
different name. -/
theorem name_pred_disj (n m : String) (hnm : n ≠ m) :
    ∀ x : Register, (x.name == n) = true → (x.name == m) = false := by
  intro x hx
  have hxn : x.name = n := by simpa using hx
  simp [hxn, hnm]

/-- The register updates of the engine keep register names. -/
theorem find?_updateFirst_regs_other (n m : String) (hnm : n ≠ m)
    (f : Register → Register) (hf : ∀ x, (f x).name = x.name) (l : List Register) :
    (updateFirst (fun r => r.name == n) f l).find? (fun r => r.name == m) =
      l.find? (fun r => r.name == m) := by
  refine find?_updateFirst_disj _ _ f l (name_pred_disj n m hnm) ?_
  intro x
  simp [hf]

theorem find?_updateFirst_regs_same (n : String)
    (f : Register → Register) (hf : ∀ x, (f x).name = x.name) (l : List Register) :
    (updateFirst (fun r => r.name == n) f l).find? (fun r => r.name == n) =
      (l.find? (fun r => r.name == n)).map f := by
  refine find?_updateFirst_same _ f l ?_
  intro x
  simp [hf]

theorem find?_updateFirst_mem_same (a : Nat)
    (f : MemoryLocation → MemoryLocation) (hf : ∀ x, (f x).address = x.address)
    (l : List MemoryLocation) :
    (updateFirst (fun m => m.address == a) f l).find? (fun m => m.address == a) =
      (l.find? (fun m => m.address == a)).map f := by
  refine find?_updateFirst_same _ f l ?_
  intro x
  simp [hf]

/-! ## C4 (amended): the arithmetic table of the EXECUTE phase -/

/-- C4 (amended): for arbitrary register contents a = R1, b = R2, the
EXECUTE phase of `op R1, R2 → R3` (op ∈ {ADD, SUB, MUL, DIV}) sets R3 to
a+b, a−b, a·b, or — for DIV — to 0 when b = 0 and to the *exact* quotient
a/b otherwise (no flooring). -/
theorem C4_arith_table (env : Env) (s : SimulationState) (st : SimulationStep)
    (i dsc : String) (a : Option Nat) (op : Opcode) (r1 r2 r3 : Register)
    (hop : op = .ADD ∨ op = .SUB ∨ op = .MUL ∨ op = .DIV)
    (h1 : s.cpu.registers.find? (fun r => r.name == "R1") = some r1)
    (h2 : s.cpu.registers.find? (fun r => r.name == "R2") = some r2)
    (h3 : s.cpu.registers.find? (fun r => r.name == "R3") = some r3) :
    (((executeExecute env
        { id := i, opcode := op, operand1 := some (.reg "R1"),
          operand2 := some (.reg "R2"), destination := some "R3", address := a,
          description := dsc } s st).1.cpu.registers.find?
        (fun r => r.name == "R3")).map (fun r => r.value)) =
      some (match op with
        | .ADD => r1.value + r2.value
        | .SUB => r1.value - r2.value
        | .MUL => r1.value * r2.value
        | .DIV => if r2.value = 0 then 0 else r1.value / r2.value
        | _ => 0) := by
  have key : ∀ result : ℚ,
      ((updateFirst (fun r => r.name == "R2") (fun r => { r with active := true })
        (updateFirst (fun r => r.name == "R1") (fun r => { r with active := true })
          (updateFirst (fun r => r.name == "R3")
            (fun r => { r with value := result, active := true })
            s.cpu.registers))).find? (fun r => r.name == "R3")).map
        (fun r => r.value) = some result := by
    intro result
    rw [find?_updateFirst_regs_other "R2" "R3" (by decide)
        (fun r => { r with active := true }) (fun _ => rfl),
      find?_updateFirst_regs_other "R1" "R3" (by decide)
        (fun r => { r with active := true }) (fun _ => rfl),
      find?_updateFirst_regs_same "R3"
        (fun r => { r with value := result, active := true }) (fun _ => rfl), h3]
    rfl
  have hguardT : (truthyOperand (some (Operand.reg "R1")) &&
      truthyOperand (some (Operand.reg "R2")) && truthyStr (some "R3")) = true := rfl
  rcases hop with h | h | h | h <;> subst h <;>
    simp only [executeExecute, hguardT, eq_self_iff_true, if_true, Option.getD_some,
      h1, h2, h3, addBusTransfer_cpu, setRegisters_cpu_registers]
  · exact key _
  · exact key _
  · exact key _
  · have hres : (if r2.value ≠ 0 then r1.value / r2.value else 0) =
        (if r2.value = 0 then 0 else r1.value / r2.value) := by
      by_cases hz : r2.value = 0 <;> simp [hz]
    rw [← hres]
    exact key _

/-- C4 witness: the amended table applied to the concrete state R1 = 10,
R2 = 3 with op = DIV. -/
theorem C4_arith_table_witness :
    (((executeExecute canonEnv
        { id := "d", opcode := .DIV, operand1 := some (.reg "R1"),
          operand2 := some (.reg "R2"), destination := some "R3", address := none,
          description := "" } divState (emptyStep divIns)).1.cpu.registers.find?
        (fun r => r.name == "R3")).map (fun r => r.value)) =
      some (match Opcode.DIV with
        | .ADD => (10 : ℚ) + 3
        | .SUB => (10 : ℚ) - 3
        | .MUL => (10 : ℚ) * 3
        | .DIV => if (3 : ℚ) = 0 then 0 else (10 : ℚ) / 3
        | _ => 0) :=
  C4_arith_table canonEnv divState (emptyStep divIns) "d" "" none .DIV
    { name := "R1", value := 10, active := false,
      description := "General purpose register 1" }
    { name := "R2", value := 3, active := false,
      description := "General purpose register 2" }
    { name := "R3", value := 0, active := false,
      description := "General purpose register 3 (accumulator)" }
    (Or.inr (Or.inr (Or.inr rfl))) rfl rfl rfl


/-! ## C3: write-through STORE followed by LOAD -/

theorem setMemory_cpu_memory (mem : List MemoryLocation) (s : SimulationState) :
    (setMemory mem s).cpu.memory = mem := rfl

/-- Effect of the EXECUTE phase of a well-formed STORE on registers and
memory: registers untouched; the first cell at the target address gets the
source register's value and its active/used flags set. -/
theorem store_exec_parts (env : Env) (s : SimulationState) (st : SimulationStep)
    (i1 d1 srcName : String) (X : Nat) (sreg : Register) (m0 : MemoryLocation)
    (hsrcb : (srcName == "") = false)
    (hreg : s.cpu.registers.find? (fun r => r.name == srcName) = some sreg)
    (hmem : s.cpu.memory.find? (fun m => m.address == X) = some m0) :
    ((executeExecute env
      { id := i1, opcode := .STORE, destination := some srcName, address := some X,
        description := d1 } s st).1.cpu.registers = s.cpu.registers) ∧
    ((executeExecute env
      { id := i1, opcode := .STORE, destination := some srcName, address := some X,
        description := d1 } s st).1.cpu.memory =
      updateFirst (fun m => m.address == X)
        (fun m => { m with value := sreg.value, active := true, used := true })
        s.cpu.memory) := by
  refine ⟨?_, ?_⟩ <;>
    simp only [executeExecute, hsrcb, Bool.false_eq_true, if_false, hreg, hmem] <;>
    split <;>
    simp only [addBusTransfer_cpu, updateCache_cpu_registers, updateCache_cpu_memory,
      setMemory_cpu_registers, setMemory_cpu_memory]

/-- Effect of the EXECUTE phase of a LOAD with an address on the
destination register: it receives the memory cell's value — except that,
through the `memLoc?.value || operand1` fallback, a stored 0 is replaced
by the instruction's literal operand. -/
theorem load_exec_value (env : Env) (s : SimulationState) (st : SimulationStep)
    (i2 d2 destName : String) (X : Nat) (L : ℚ) (dreg : Register) (mX : MemoryLocation)
    (hdstb : (destName == "") = false)
    (hdest : s.cpu.registers.find? (fun r => r.name == destName) = some dreg)
    (hmem : s.cpu.memory.find? (fun m => m.address == X) = some mX) :
    (((executeExecute env
      { id := i2, opcode := .LOAD, operand1 := some (.num L),
        destination := some destName, address := some X, description := d2 }
      s st).1.cpu.registers.find? (fun r => r.name == destName)).map
      (fun r => r.value)) = some (if mX.value = 0 then L else mX.value) := by
  have hccmem : (checkCache s X).1.cpu.memory.find? (fun m => m.address == X) = some mX := by
    rw [checkCache_cpu_memory]
    exact hmem
  simp only [executeExecute, hdstb, Bool.false_eq_true, if_false, hdest, hccmem]
  split <;>
    simp only [addBusTransfer_cpu, setRegisters_cpu_registers] <;>
    rw [find?_updateFirst_regs_same destName
        (fun r => { r with value := if mX.value = 0 then L else mX.value, active := true })
        (fun _ => rfl), setMemory_cpu_registers, checkCache_cpu_registers, hdest] <;>
    rfl

/-- `STORE R1 → 10` on a fresh state (R1 = 0). -/
def storeIns0 : Instruction :=
  { id := "s", opcode := .STORE, destination := some "R1", address := some 10 }

/-- `LOAD [10] → R3` with literal operand 7. -/
def loadIns7 : Instruction :=
  { id := "l", opcode := .LOAD, operand1 := some (.num 7), destination := some "R3",
    address := some 10 }

/-- The state after executing the STORE of `C3_counterexample`. -/
def c3mid : SimulationState :=
  (executeExecute canonEnv storeIns0 createInitialState (emptyStep storeIns0)).1

/-- The state after the subsequent LOAD of `C3_counterexample`. -/
def c3fin : SimulationState :=
  (executeExecute canonEnv loadIns7 c3mid (emptyStep loadIns7)).1

/-- C3 (counterexample): store the value v = 0 (register R1 of a fresh
state) to address 10, then LOAD address 10 into R3 with literal operand 7:
the memory cell does hold 0, but the destination register receives 7, not
the stored value — the `||` fallback in `memLoc?.value || operand1`
replaces a stored zero by the literal. -/
theorem C3_counterexample :
    (((createInitialState.cpu.registers.find? (fun r => r.name == "R1")).map
        (fun r => r.value)) = some 0) ∧
    ((c3mid.cpu.memory.find? (fun m => m.address == 10)).map
        (fun m => m.value) = some 0) ∧
    ((c3fin.cpu.registers.find? (fun r => r.name == "R3")).map
        (fun r => r.value) = some 7) ∧ (7 : ℚ) ≠ 0 := by
  refine ⟨?_, ?_, ?_, by norm_num⟩ <;> with_unfolding_all rfl

/-- C3 (amended): after the EXECUTE phase of a STORE writing register
value v to address X, the EXECUTE phase of an immediately following LOAD
of X sets its destination register to v *provided v ≠ 0* — regardless of
cache hit or miss (the cache state is arbitrary here and the loaded value
is read from backing memory).  When v = 0 the destination instead
receives the LOAD's literal operand (see the counterexample). -/
theorem C3_store_then_load (env env2 : Env) (s : SimulationState)
    (st1 st2 : SimulationStep) (i1 i2 d1 d2 srcName destName : String) (X : Nat)
    (L : ℚ) (sreg dreg : Register) (m0 : MemoryLocation)
    (hsrc : srcName ≠ "") (hdst : destName ≠ "")
    (hreg : s.cpu.registers.find? (fun r => r.name == srcName) = some sreg)
    (hv : sreg.value ≠ 0)
    (hmem : s.cpu.memory.find? (fun m => m.address == X) = some m0)
    (hdest : s.cpu.registers.find? (fun r => r.name == destName) = some dreg) :
    ((((executeExecute env2
        { id := i2, opcode := .LOAD, operand1 := some (.num L),
          destination := some destName, address := some X, description := d2 }
        (executeExecute env
          { id := i1, opcode := .STORE, destination := some srcName,
            address := some X, description := d1 } s st1).1 st2).1).cpu.registers.find?
        (fun r => r.name == destName)).map (fun r => r.value)) = some sreg.value := by
  have hsrcb : (srcName == "") = false := by simp [hsrc]
  have hdstb : (destName == "") = false := by simp [hdst]
  obtain ⟨hregs, hmem2⟩ :=
    store_exec_parts env s st1 i1 d1 srcName X sreg m0 hsrcb hreg hmem
  have hmiddest :
      (executeExecute env
        { id := i1, opcode := .STORE, destination := some srcName,
          address := some X, description := d1 } s st1).1.cpu.registers.find?
        (fun r => r.name == destName) = some dreg := by
    rw [hregs]
    exact hdest
  have hmidmem :
      (executeExecute env
        { id := i1, opcode := .STORE, destination := some srcName,
          address := some X, description := d1 } s st1).1.cpu.memory.find?
        (fun m => m.address == X) =
      some { m0 with value := sreg.value, active := true, used := true } := by
    rw [hmem2, find?_updateFirst_mem_same X
      (fun m => { m with value := sreg.value, active := true, used := true })
      (fun _ => rfl), hmem]
    rfl
  rw [load_exec_value env2 _ st2 i2 d2 destName X L dreg
    { m0 with value := sreg.value, active := true, used := true } hdstb hmiddest hmidmem]
  simp [hv]

/-- C3 witness: store R1 = 5 to address 10 on a state with R1 = 5 (and
R2 = 3), then load address 10 into R3 with literal operand 7: R3 = 5. -/
theorem C3_store_then_load_witness :
    ((((executeExecute canonEnv
        { id := "l", opcode := .LOAD, operand1 := some (.num 7),
          destination := some "R3", address := some 10, description := "" }
        (executeExecute canonEnv
          { id := "s", opcode := .STORE, destination := some "R1",
            address := some 10, description := "" } divState
          (emptyStep storeIns0)).1 (emptyStep loadIns7)).1).cpu.registers.find?
        (fun r => r.name == "R3")).map (fun r => r.value)) = some
      ({ name := "R1", value := 10, active := false,
         description := "General purpose register 1" } : Register).value :=
  C3_store_then_load canonEnv canonEnv divState (emptyStep storeIns0)
    (emptyStep loadIns7) "s" "l" "" "" "R1" "R3" 10 7
    { name := "R1", value := 10, active := false,
      description := "General purpose register 1" }
    { name := "R3", value := 0, active := false,
      description := "General purpose register 3 (accumulator)" }
    { address := 10, value := 0, active := false, used := false }
    (by decide) (by decide) (by with_unfolding_all rfl) (by norm_num)
    (by with_unfolding_all rfl) (by with_unfolding_all rfl)


/-! ## C6 / C9: reachability and the cache invariants -/

/-- Two lines may not both be valid at the same address. -/
def linePred (x y : CacheLine) : Prop :=
  x.valid = true → y.valid = true → x.address ≠ y.address

/-- At most one valid line per address (pairwise over the line array). -/
def goodLines (ls : List CacheLine) : Prop := ls.Pairwise linePred

/-- Every line of the array is invalid. -/
def allInvalid (ls : List CacheLine) : Prop := ∀ l ∈ ls, l.valid = false

/-- The cache-shape invariant maintained by the engine: the levels appear
in the fixed order L1, L2, L3; L1's valid lines have pairwise distinct
addresses; L2 and L3 hold no valid line and have untouched counters. -/
def CacheInv (caches : List CacheState) : Prop :=
  ∃ c1 c2 c3, caches = [c1, c2, c3] ∧
    c1.level = CacheLevel.L1 ∧ c2.level = CacheLevel.L2 ∧ c3.level = CacheLevel.L3 ∧
    goodLines c1.lines ∧ allInvalid c2.lines ∧ allInvalid c3.lines ∧
    c2.hits = 0 ∧ c2.misses = 0 ∧ c3.hits = 0 ∧ c3.misses = 0

/-- The states reachable from the freshly constructed/reset engine by any
interleaving of `step`, `setExample`, `checkCache` and `updateCache`. -/
inductive Reach : Engine → Prop
  | reset : Reach initEngine
  | stepped (env : Env) {e : Engine} : Reach e → Reach (step env e).1
  | exampleSet {e : Engine} (ty : ExampleType) (d : Option ExampleData) :
      Reach e → Reach (setExample e ty d)
  | checked {e : Engine} (a : Nat) :
      Reach e → Reach { e with state := (checkCache e.state a).1 }
  | updated {e : Engine} (a : Nat) (v : ℚ) :
      Reach e → Reach { e with state := (updateCache e.state a v).1 }

theorem allInvalid_goodLines {ls : List CacheLine} (h : allInvalid ls) :
    goodLines ls := by
  induction ls with
  | nil => exact List.Pairwise.nil
  | cons x xs ih =>
    refine List.Pairwise.cons ?_ (ih fun l hl => h l (List.mem_cons_of_mem x hl))
    intro y _ hx
    rw [h x (List.mem_cons_self x xs)] at hx
    exact absurd hx (by simp)

theorem updateFirst_mem (p : α → Bool) (f : α → α) :
    ∀ {l : List α} {y : α}, y ∈ updateFirst p f l → ∃ z ∈ l, y = z ∨ y = f z := by
  intro l
  induction l with
  | nil => intro y h; cases h
  | cons a as ih =>
    intro y h
    rw [updateFirst_cons] at h
    by_cases ha : p a = true
    · rw [if_pos ha] at h
      rcases List.mem_cons.mp h with h | h
      · exact ⟨a, List.mem_cons_self a as, Or.inr h⟩
      · exact ⟨y, List.mem_cons_of_mem a h, Or.inl rfl⟩
    · rw [if_neg ha] at h
      rcases List.mem_cons.mp h with h | h
      · exact ⟨a, List.mem_cons_self a as, Or.inl h⟩
      · obtain ⟨z, hz, hyz⟩ := ih h
        exact ⟨z, List.mem_cons_of_mem a hz, hyz⟩

/-- `goodLines` only depends on `valid` and `address`, so any per-line
update preserving them preserves it. -/
theorem goodLines_updateFirst (p : CacheLine → Bool) (f : CacheLine → CacheLine)
    (hf : ∀ x, (f x).valid = x.valid ∧ (f x).address = x.address) :
    ∀ {ls : List CacheLine}, goodLines ls → goodLines (updateFirst p f ls) := by
  intro ls
  induction ls with
  | nil => intro h; exact h
  | cons a as ih =>
    intro h
    rcases List.pairwise_cons.mp h with ⟨ha, has⟩
    rw [updateFirst_cons]
    by_cases hp : p a = true
    · rw [if_pos hp]
      refine List.pairwise_cons.mpr ⟨?_, has⟩
      intro y hy h1 h2
      have h1a : a.valid = true := by rw [← (hf a).1]; exact h1
      rw [(hf a).2]
      exact ha y hy h1a h2
    · rw [if_neg hp]
      refine List.pairwise_cons.mpr ⟨?_, ih has⟩
      intro y hy
      obtain ⟨z, hz, hyz⟩ := updateFirst_mem p f hy
      rcases hyz with h | h
      · rw [h]
        exact ha z hz
      · rw [h]
        intro h1 h2
        have h2z : z.valid = true := by rw [← (hf z).1]; exact h2
        rw [(hf z).2]
        exact ha z hz h1 h2z

/-- Overwriting any one slot with a line whose address clashes with no
valid line preserves `goodLines`. -/
theorem goodLines_set (x : CacheLine) :
    ∀ (ls : List CacheLine) (i : Nat), goodLines ls →
      (∀ y ∈ ls, linePred x y ∧ linePred y x) → goodLines (ls.set i x) := by
  intro ls
  induction ls with
  | nil => intro i h _; simpa using h
  | cons a as ih =>
    intro i h hx
    rcases List.pairwise_cons.mp h with ⟨ha, has⟩
    cases i with
    | zero =>
      rw [List.set_cons_zero]
      refine List.pairwise_cons.mpr ⟨?_, has⟩
      intro y hy
      exact (hx y (List.mem_cons_of_mem a hy)).1
    | succ i =>
      rw [List.set_cons_succ]
      refine List.pairwise_cons.mpr ⟨?_, ih i has
        (fun y hy => hx y (List.mem_cons_of_mem a hy))⟩
      intro y hy
      rcases List.mem_or_eq_of_mem_set hy with hy | rfl
      · exact ha y hy
      · exact (hx a (List.mem_cons_self a as)).2

theorem find?_lineHits_none {ls : List CacheLine} {a : Nat}
    (h : allInvalid ls) : ls.find? (lineHits a) = none :=
  List.find?_eq_none.mpr fun x hx => by simp [lineHits, h x hx]

/-- A failed hit scan means the address clashes with no valid line. -/
theorem no_clash_of_find?_none {ls : List CacheLine} {a : Nat}
    (h : ls.find? (lineHits a) = none) :
    ∀ y ∈ ls, y.valid = true → y.address ≠ a := by
  intro y hy hv hadr
  have := List.find?_eq_none.mp h y hy
  simp [lineHits, hv, hadr] at this


theorem markReadHit_goodLines (cycle a : Nat) {ls : List CacheLine}
    (h : goodLines ls) :
    goodLines (updateFirst (lineHits a) (fun l => { l with lastAccessed := cycle }) ls) :=
  goodLines_updateFirst (lineHits a) (fun l => { l with lastAccessed := cycle })
    (fun _ => ⟨rfl, rfl⟩) h

theorem markWriteHit_goodLines (cycle a : Nat) (v : ℚ) {ls : List CacheLine}
    (h : goodLines ls) :
    goodLines (updateFirst (lineHits a)
      (fun l => { l with value := v, dirty := true, lastAccessed := cycle }) ls) :=
  goodLines_updateFirst (lineHits a)
    (fun l => { l with value := v, dirty := true, lastAccessed := cycle })
    (fun _ => ⟨rfl, rfl⟩) h

/-- Allocating a line for a missed address preserves the per-level
uniqueness: the fresh line's address clashes with no valid line. -/
theorem goodLines_set_fresh (a : Nat) (nl : CacheLine) (hadr : nl.address = a)
    {ls : List CacheLine} (i : Nat) (hg : goodLines ls)
    (hmiss : ls.find? (lineHits a) = none) : goodLines (ls.set i nl) := by
  refine goodLines_set nl ls i hg ?_
  intro y hy
  have hy2 := no_clash_of_find?_none hmiss y hy
  constructor
  · intro _ hyv
    rw [hadr]
    intro hcontra
    exact hy2 hyv hcontra.symm
  · intro hyv _
    rw [hadr]
    exact hy2 hyv

theorem checkCacheCore_inv (cycle a : Nat) (mem : List MemoryLocation)
    (caches : List CacheState) (h : CacheInv caches) :
    CacheInv (checkCacheCore cycle a mem caches).1 := by
  obtain ⟨c1, c2, c3, rfl, h1, h2, h3, hg, hi2, hi3, hh2, hm2, hh3, hm3⟩ := h
  have b1 : (c1.level == CacheLevel.L1) = true := by rw [h1]; rfl
  have b2 : (c2.level == CacheLevel.L1) = false := by rw [h2]; rfl
  have b3 : (c1.level == CacheLevel.L2) = false := by rw [h1]; rfl
  have b4 : (c2.level == CacheLevel.L2) = true := by rw [h2]; rfl
  have b5 : (c1.level == CacheLevel.L3) = false := by rw [h1]; rfl
  have b6 : (c2.level == CacheLevel.L3) = false := by rw [h2]; rfl
  have b7 : (c3.level == CacheLevel.L3) = true := by rw [h3]; rfl
  simp only [checkCacheCore, clearCacheActive, List.map_cons, List.map_nil,
    cacheLevels, scanLevels, List.find?, b1, b2, b3, b4, b5, b6, b7,
    find?_lineHits_none hi2, find?_lineHits_none hi3]
  cases hf : c1.lines.find? (lineHits a) with
  | some l =>
    simp only [updateFirst_cons, b1, if_true, markReadHit]
    exact ⟨_, _, _, rfl, h1, h2, h3, markReadHit_goodLines cycle a hg,
      hi2, hi3, hh2, hm2, hh3, hm3⟩
  | none =>
    simp only [updateFirst_cons, b1, if_true, allocateLineRead]
    exact ⟨_, _, _, rfl, h1, h2, h3,
      goodLines_set_fresh a _ rfl _ hg hf, hi2, hi3, hh2, hm2, hh3, hm3⟩

theorem updateCacheCore_inv (cycle a : Nat) (v : ℚ)
    (caches : List CacheState) (h : CacheInv caches) :
    CacheInv (updateCacheCore cycle a v caches).1 := by
  obtain ⟨c1, c2, c3, rfl, h1, h2, h3, hg, hi2, hi3, hh2, hm2, hh3, hm3⟩ := h
  have b1 : (c1.level == CacheLevel.L1) = true := by rw [h1]; rfl
  simp only [updateCacheCore, clearCacheActive, List.map_cons, List.map_nil,
    scanWrite, find?_lineHits_none hi2, find?_lineHits_none hi3]
  cases hf : c1.lines.find? (lineHits a) with
  | some l =>
    simp only [markWriteHit]
    exact ⟨_, _, _, rfl, h1, h2, h3, markWriteHit_goodLines cycle a v hg,
      hi2, hi3, hh2, hm2, hh3, hm3⟩
  | none =>
    simp only [updateFirst_cons, b1, if_true, allocateLineWrite]
    cases hw : writeEvictIdx c1.lines with
    | some i =>
      exact ⟨_, _, _, rfl, h1, h2, h3,
        goodLines_set_fresh a _ rfl _ hg hf, hi2, hi3, hh2, hm2, hh3, hm3⟩
    | none =>
      exact ⟨_, _, _, rfl, h1, h2, h3, hg, hi2, hi3, hh2, hm2, hh3, hm3⟩


theorem createInitialState_cacheInv : CacheInv createInitialState.cpu.cache := by
  refine ⟨_, _, _, rfl, rfl, rfl, rfl, ?_, ?_, ?_, rfl, rfl, rfl, rfl⟩
  · exact allInvalid_goodLines (by intro l hl; simp [List.eq_of_mem_replicate hl])
  · intro l hl
    simp [List.eq_of_mem_replicate hl]
  · intro l hl
    simp [List.eq_of_mem_replicate hl]

theorem executeFetch_cpu_cache (env : Env) (ins : Instruction) (s : SimulationState)
    (st : SimulationStep) : (executeFetch env ins s st).1.cpu.cache = s.cpu.cache := by
  simp only [executeFetch]
  split <;> rfl

theorem executeDecode_cpu_cache (ins : Instruction) (s : SimulationState)
    (st : SimulationStep) : (executeDecode ins s st).1.cpu.cache = s.cpu.cache := rfl

theorem executeStore_cpu_cache (ins : Instruction) (s : SimulationState)
    (st : SimulationStep) : (executeStore ins s st).1.cpu.cache = s.cpu.cache := rfl

theorem setRegisters_cpu_cache (regs : List Register) (s : SimulationState) :
    (setRegisters regs s).cpu.cache = s.cpu.cache := rfl

theorem setMemory_cpu_cache (mem : List MemoryLocation) (s : SimulationState) :
    (setMemory mem s).cpu.cache = s.cpu.cache := rfl

theorem setMemory_cpu_clockCycle (mem : List MemoryLocation) (s : SimulationState) :
    (setMemory mem s).cpu.clockCycle = s.cpu.clockCycle := rfl

theorem checkCache_fst_cpu_cache (s : SimulationState) (a : Nat) :
    (checkCache s a).1.cpu.cache =
      (checkCacheCore s.cpu.clockCycle a s.cpu.memory s.cpu.cache).1 := rfl

theorem updateCache_fst_cpu_cache (s : SimulationState) (a : Nat) (v : ℚ) :
    (updateCache s a v).1.cpu.cache =
      (updateCacheCore s.cpu.clockCycle a v s.cpu.cache).1 := rfl

/-- The EXECUTE phase either leaves the cache alone, or applies exactly
one read lookup (`checkCache`) or one write update (`updateCache`) to it. -/
theorem executeExecute_cache_cases (env : Env) (ins : Instruction)
    (s : SimulationState) (st : SimulationStep) :
    (executeExecute env ins s st).1.cpu.cache = s.cpu.cache ∨
    (∃ a, (executeExecute env ins s st).1.cpu.cache =
      (checkCacheCore s.cpu.clockCycle a s.cpu.memory s.cpu.cache).1) ∨
    (∃ a v, (executeExecute env ins s st).1.cpu.cache =
      (updateCacheCore s.cpu.clockCycle a v s.cpu.cache).1) := by
  obtain ⟨i, op, o1, o2, dst, addr, dsc⟩ := ins
  cases op <;>
    simp only [executeExecute] <;>
    (repeat' split) <;>
    first
      | exact Or.inl rfl
      | exact Or.inl trivial
      | exact Or.inr (Or.inl ⟨_, by
          simp only [addBusTransfer_cpu, setRegisters_cpu_cache, setMemory_cpu_cache,
            checkCache_fst_cpu_cache]
          rfl⟩)
      | exact Or.inr (Or.inr ⟨_, _, by
          simp only [addBusTransfer_cpu, setRegisters_cpu_cache, setMemory_cpu_cache,
            updateCache_fst_cpu_cache, setMemory_cpu_clockCycle]
          rfl⟩)

theorem executeFetch_cacheInv (env : Env) (ins : Instruction) (s : SimulationState)
    (st : SimulationStep) (h : CacheInv s.cpu.cache) :
    CacheInv (executeFetch env ins s st).1.cpu.cache := by
  rw [executeFetch_cpu_cache]
  exact h

theorem executeDecode_cacheInv (ins : Instruction) (s : SimulationState)
    (st : SimulationStep) (h : CacheInv s.cpu.cache) :
    CacheInv (executeDecode ins s st).1.cpu.cache := h

theorem executeStore_cacheInv (ins : Instruction) (s : SimulationState)
    (st : SimulationStep) (h : CacheInv s.cpu.cache) :
    CacheInv (executeStore ins s st).1.cpu.cache := h

theorem executeExecute_cacheInv (env : Env) (ins : Instruction) (s : SimulationState)
    (st : SimulationStep) (h : CacheInv s.cpu.cache) :
    CacheInv (executeExecute env ins s st).1.cpu.cache := by
  rcases executeExecute_cache_cases env ins s st with hc | ⟨a, hc⟩ | ⟨a, v, hc⟩ <;>
    rw [hc]
  · exact h
  · exact checkCacheCore_inv _ a _ _ h
  · exact updateCacheCore_inv _ a v _ h

theorem setExample_cpu_cache (e : Engine) (ty : ExampleType)
    (d : Option ExampleData) :
    (setExample e ty d).state.cpu.cache = e.state.cpu.cache := rfl

theorem step_cacheInv (env : Env) (e : Engine)
    (h : CacheInv e.state.cpu.cache) : CacheInv (step env e).1.state.cpu.cache := by
  simp only [step]
  split
  · exact h
  · split
    · exact h
    · cases hph : phases.getD e.phaseIndex InstructionPhase.IDLE <;>
        simp only [hph]
      · exact executeFetch_cacheInv env _ _ _ h
      · exact executeDecode_cacheInv _ _ _ h
      · exact executeExecute_cacheInv env _ _ _ h
      · exact executeStore_cacheInv _ _ _ h
      · exact h

/-- Every reachable engine state satisfies the cache invariant. -/
theorem reach_cacheInv {e : Engine} (h : Reach e) : CacheInv e.state.cpu.cache := by
  induction h with
  | reset => exact createInitialState_cacheInv
  | stepped env _ ih => exact step_cacheInv env _ ih
  | exampleSet ty d _ ih => exact ih
  | checked a _ ih => exact checkCacheCore_inv _ a _ _ ih
  | updated a v _ ih => exact updateCacheCore_inv _ a v _ ih


/-- C6: in every state reachable from the fresh engine by any sequence of
`step`, `setExample`, `checkCache` and `updateCache` calls, each cache
level holds at most one valid line per address: the line array of every
level is pairwise free of valid-valid address clashes. -/
theorem C6_cache_unique {e : Engine} (h : Reach e) :
    ∀ c ∈ e.state.cpu.cache, goodLines c.lines := by
  obtain ⟨c1, c2, c3, hcs, h1, h2, h3, hg, hi2, hi3, hh2, hm2, hh3, hm3⟩ :=
    reach_cacheInv h
  rw [hcs]
  intro c hc
  simp only [List.mem_cons, List.not_mem_nil, or_false] at hc
  rcases hc with rfl | rfl | rfl
  · exact hg
  · exact allInvalid_goodLines hi2
  · exact allInvalid_goodLines hi3

/-- C6 witness: the uniqueness invariant at a concrete reachable state —
a fresh engine after loading the calculator example and one read lookup
of address 5, instantiated at the first (L1) cache level. -/
theorem C6_cache_unique_witness :
    goodLines ((({ setExample initEngine ExampleType.CALCULATOR
        (some (ExampleData.calc 5 3 CalcOp.plus)) with
        state := (checkCache (setExample initEngine ExampleType.CALCULATOR
          (some (ExampleData.calc 5 3 CalcOp.plus))).state 5).1 } : Engine).state.cpu.cache.getD
        0 ⟨CacheLevel.L1, [], 0, 0, 0, none, none⟩).lines) :=
  C6_cache_unique (Reach.checked 5 (Reach.exampleSet ExampleType.CALCULATOR
      (some (ExampleData.calc 5 3 CalcOp.plus)) Reach.reset)) _
    (by with_unfolding_all decide)

/-- C9: in every reachable state, L2 and L3 hold no valid line — new
lines are only ever allocated into L1 — and their hit and miss counters
are still 0, so every recorded cache hit happened at L1. -/
theorem C9_upper_levels_silent {e : Engine} (h : Reach e) :
    ∀ c ∈ e.state.cpu.cache, c.level ≠ CacheLevel.L1 →
      (∀ l ∈ c.lines, l.valid = false) ∧ c.hits = 0 ∧ c.misses = 0 := by
  obtain ⟨c1, c2, c3, hcs, h1, h2, h3, hg, hi2, hi3, hh2, hm2, hh3, hm3⟩ :=
    reach_cacheInv h
  rw [hcs]
  intro c hc hne
  simp only [List.mem_cons, List.not_mem_nil, or_false] at hc
  rcases hc with rfl | rfl | rfl
  · exact absurd h1 hne
  · exact ⟨hi2, hh2, hm2⟩
  · exact ⟨hi3, hh3, hm3⟩

/-- C9 witness: the upper levels are silent at a concrete reachable
state — a fresh engine after a write update of address 7 with value 9,
instantiated at the second (L2) cache level and its first line. -/
theorem C9_upper_levels_silent_witness :
    ((({ initEngine with
        state := (updateCache initEngine.state 7 9).1 } : Engine).state.cpu.cache.getD
        1 ⟨CacheLevel.L1, [], 0, 0, 0, none, none⟩).lines.getD
        0 ⟨0, 0, false, false, 0⟩).valid = false ∧
    (({ initEngine with
        state := (updateCache initEngine.state 7 9).1 } : Engine).state.cpu.cache.getD
        1 ⟨CacheLevel.L1, [], 0, 0, 0, none, none⟩).hits = 0 ∧
    (({ initEngine with
        state := (updateCache initEngine.state 7 9).1 } : Engine).state.cpu.cache.getD
        1 ⟨CacheLevel.L1, [], 0, 0, 0, none, none⟩).misses = 0 :=
  have h := C9_upper_levels_silent (Reach.updated 7 9 Reach.reset)
    (({ initEngine with
        state := (updateCache initEngine.state 7 9).1 } : Engine).state.cpu.cache.getD
        1 ⟨CacheLevel.L1, [], 0, 0, 0, none, none⟩)
    (by with_unfolding_all decide) (by with_unfolding_all decide)
  ⟨h.1 _ (by with_unfolding_all decide), h.2.1, h.2.2⟩


/-! ## C7: determinism of replays -/

/-- Erase the oracle-dependent fields of a bus transfer (the
`Date.now()`/`Math.random()` id and the timestamp). -/
def scrubTransfer (b : BusTransfer) : BusTransfer :=
  { b with id := "", timestamp := 0 }

/-- Erase the oracle-dependent fields of a state. -/
def scrubState (s : SimulationState) : SimulationState :=
  { s with busTransfers := s.busTransfers.map scrubTransfer }

/-- Erase the oracle-dependent fields of an engine. -/
def scrubEngine (e : Engine) : Engine :=
  { e with state := scrubState e.state }

/-- An oracle standing for a replay at a different wall-clock time. -/
def altEnv : Env := fun n => ("t", n + 1)

/-- C7 (counterexample): two replays of the very same `step()` sequence
on the very same loaded engine, differing only in when they run (the
id/timestamp oracle), produce different bus-transfer logs — while the
history is identical.  The log records `Date.now()`/`Math.random()`-based
ids, so the final state including the bus log is not replay-invariant. -/
theorem C7_counterexample :
    ((runSteps canonEnv 1 calcEngine).state.busTransfers ≠
      (runSteps altEnv 1 calcEngine).state.busTransfers) ∧
    ((runSteps canonEnv 1 calcEngine).state.history =
      (runSteps altEnv 1 calcEngine).state.history) := by
  refine ⟨?_, ?_⟩ <;> with_unfolding_all decide

theorem scrubState_cpu (s : SimulationState) : (scrubState s).cpu = s.cpu := rfl

theorem scrubState_mk (c : CPUState) (ex : ExampleType) (sp : Nat) (scv : Bool)
    (cvm : CodeViewMode) (bus : List BusTransfer) (hist : List SimulationStep) :
    scrubState ⟨c, ex, sp, scv, cvm, bus, hist⟩ =
      ⟨c, ex, sp, scv, cvm, bus.map scrubTransfer, hist⟩ := rfl

theorem scrubState_busTransfers (s : SimulationState) :
    (scrubState s).busTransfers = s.busTransfers.map scrubTransfer := rfl

theorem scrubState_history (s : SimulationState) :
    (scrubState s).history = s.history := rfl

theorem scrub_addBus (env : Env) (t : BusType) (a b : String) (v : ℚ)
    (s : SimulationState) :
    scrubState (addBusTransfer env t a b v s) =
      addBusTransfer canonEnv t a b v (scrubState s) := by
  simp [scrubState, addBusTransfer, scrubTransfer, canonEnv]

theorem scrub_setRegisters (r : List Register) (s : SimulationState) :
    scrubState (setRegisters r s) = setRegisters r (scrubState s) := rfl

theorem scrub_setMemory (m : List MemoryLocation) (s : SimulationState) :
    scrubState (setMemory m s) = setMemory m (scrubState s) := rfl

theorem scrub_setCache (c : List CacheState) (s : SimulationState) :
    scrubState (setCache c s) = setCache c (scrubState s) := rfl

theorem checkCache_scrub_fst (s : SimulationState) (a : Nat) :
    (checkCache (scrubState s) a).1 = scrubState (checkCache s a).1 := rfl

theorem checkCache_scrub_snd (s : SimulationState) (a : Nat) :
    (checkCache (scrubState s) a).2 = (checkCache s a).2 := rfl

theorem updateCache_scrub_fst (s : SimulationState) (a : Nat) (v : ℚ) :
    (updateCache (scrubState s) a v).1 = scrubState (updateCache s a v).1 := rfl

theorem updateCache_scrub_snd (s : SimulationState) (a : Nat) (v : ℚ) :
    (updateCache (scrubState s) a v).2 = (updateCache s a v).2 := rfl

theorem scrubState_currentExample (s : SimulationState) :
    (scrubState s).currentExample = s.currentExample := rfl

theorem scrubState_speed (s : SimulationState) : (scrubState s).speed = s.speed := rfl

theorem scrubState_showCodeView (s : SimulationState) :
    (scrubState s).showCodeView = s.showCodeView := rfl

theorem scrubState_codeViewMode (s : SimulationState) :
    (scrubState s).codeViewMode = s.codeViewMode := rfl

theorem setRegisters_cpu_programCounter (r : List Register) (s : SimulationState) :
    (setRegisters r s).cpu.programCounter = s.cpu.programCounter := rfl

theorem updateCache_setMemory_scrub_fst (m : List MemoryLocation)
    (s : SimulationState) (a : Nat) (v : ℚ) :
    (updateCache (setMemory m (scrubState s)) a v).1 =
      scrubState (updateCache (setMemory m s) a v).1 := rfl

theorem updateCache_setMemory_scrub_snd (m : List MemoryLocation)
    (s : SimulationState) (a : Nat) (v : ℚ) :
    (updateCache (setMemory m (scrubState s)) a v).2 =
      (updateCache (setMemory m s) a v).2 := rfl

theorem scrub_executeFetch (env : Env) (ins : Instruction) (s : SimulationState)
    (st : SimulationStep) :
    (scrubState (executeFetch env ins s st).1, (executeFetch env ins s st).2) =
      executeFetch canonEnv ins (scrubState s) st := by
  simp only [executeFetch, scrubState_cpu]
  split <;>
    simp only [scrub_addBus, scrub_setRegisters, scrubState_mk, scrubState_cpu,
      scrubState_currentExample, scrubState_speed, scrubState_showCodeView,
      scrubState_codeViewMode, scrubState_busTransfers, scrubState_history,
      setRegisters_cpu_programCounter]

theorem scrub_executeDecode (ins : Instruction) (s : SimulationState)
    (st : SimulationStep) :
    (scrubState (executeDecode ins s st).1, (executeDecode ins s st).2) =
      executeDecode ins (scrubState s) st := rfl

theorem scrub_executeStore (ins : Instruction) (s : SimulationState)
    (st : SimulationStep) :
    (scrubState (executeStore ins s st).1, (executeStore ins s st).2) =
      executeStore ins (scrubState s) st := rfl

theorem scrub_executeExecute (env : Env) (ins : Instruction) (s : SimulationState)
    (st : SimulationStep) :
    (scrubState (executeExecute env ins s st).1, (executeExecute env ins s st).2) =
      executeExecute canonEnv ins (scrubState s) st := by
  obtain ⟨i, op, o1, o2, dst, addr, dsc⟩ := ins
  cases op <;>
    simp only [executeExecute, scrubState_cpu, checkCache_scrub_fst,
      checkCache_scrub_snd, updateCache_setMemory_scrub_fst,
      updateCache_setMemory_scrub_snd, updateCache_scrub_fst,
      updateCache_scrub_snd] <;>
    (repeat' split) <;>
    simp only [scrub_addBus, scrub_setRegisters, scrub_setMemory, scrubState_cpu,
      setMemory_cpu_registers, setRegisters_cpu_registers,
      checkCache_scrub_fst, checkCache_scrub_snd, updateCache_setMemory_scrub_fst,
      updateCache_setMemory_scrub_snd, updateCache_scrub_fst, updateCache_scrub_snd]


theorem scrubEngine_state (e : Engine) : (scrubEngine e).state = scrubState e.state := rfl

theorem scrubEngine_currentInstructions (e : Engine) :
    (scrubEngine e).currentInstructions = e.currentInstructions := rfl

theorem scrubEngine_instructionIndex (e : Engine) :
    (scrubEngine e).instructionIndex = e.instructionIndex := rfl

theorem scrubEngine_phaseIndex (e : Engine) :
    (scrubEngine e).phaseIndex = e.phaseIndex := rfl

theorem scrubEngine_mk (s : SimulationState) (ii : Nat) (ci : List Instruction)
    (pi : Nat) :
    scrubEngine ⟨s, ii, ci, pi⟩ = ⟨scrubState s, ii, ci, pi⟩ := rfl

theorem scrubState_withCpu (s : SimulationState) (c : CPUState) :
    ({ scrubState s with cpu := c } : SimulationState) =
      scrubState { s with cpu := c } := rfl

theorem scrubState_withHistory (s : SimulationState) (h : List SimulationStep) :
    ({ scrubState s with history := h } : SimulationState) =
      scrubState { s with history := h } := rfl

/-- A single `step()` commutes with scrubbing: running under any oracle
and erasing ids/timestamps is the same as running under the fixed oracle
on the scrubbed engine; the returned flag is oracle-independent. -/
theorem scrub_step (env : Env) (e : Engine) :
    scrubEngine (step env e).1 = (step canonEnv (scrubEngine e)).1 ∧
    (step env e).2 = (step canonEnv (scrubEngine e)).2 := by
  simp only [step, scrubEngine_currentInstructions, scrubEngine_instructionIndex,
    scrubEngine_phaseIndex, scrubEngine_state, scrubState_cpu]
  split
  · exact ⟨rfl, rfl⟩
  · split
    · exact ⟨rfl, rfl⟩
    · simp only [scrubState_withCpu]
      cases hph : phases.getD e.phaseIndex InstructionPhase.IDLE <;> simp only [hph]
      · rw [← scrub_executeFetch env]
        exact ⟨by simp only [scrubEngine_mk, scrubState_history, scrubState_withHistory],
          trivial⟩
      · rw [← scrub_executeDecode]
        exact ⟨by simp only [scrubEngine_mk, scrubState_history, scrubState_withHistory],
          trivial⟩
      · rw [← scrub_executeExecute env]
        exact ⟨by simp only [scrubEngine_mk, scrubState_history, scrubState_withHistory],
          trivial⟩
      · rw [← scrub_executeStore]
        exact ⟨by simp only [scrubEngine_mk, scrubState_history, scrubState_withHistory],
          trivial⟩
      · exact ⟨by simp only [scrubEngine_mk, scrubState_history, scrubState_withHistory],
          trivial⟩

theorem scrub_runSteps (env : Env) (n : Nat) :
    ∀ e : Engine, scrubEngine (runSteps env n e) = runSteps canonEnv n (scrubEngine e) := by
  induction n with
  | zero => intro e; rfl
  | succ n ih =>
    intro e
    show scrubEngine (runSteps env n (step env e).1) = _
    rw [ih (step env e).1, (scrub_step env e).1]
    rfl

/-- C7 (amended): replays of the same `step()` sequence from the same
loaded engine are deterministic in everything except the bus transfers'
id and timestamp fields: for any two oracles (wall-clock times), the full
final engines agree after erasing ids/timestamps — in particular the
histories, the whole CPU state (registers, memory, cache, counters), and
the bus logs modulo id/timestamp are identical.  They are *not* identical
including the raw bus log (see the counterexample). -/
theorem C7_determinism_mod_ids (env1 env2 : Env) (n : Nat) (e : Engine) :
    scrubEngine (runSteps env1 n e) = scrubEngine (runSteps env2 n e) ∧
    (runSteps env1 n e).state.history = (runSteps env2 n e).state.history ∧
    (runSteps env1 n e).state.cpu = (runSteps env2 n e).state.cpu ∧
    (runSteps env1 n e).state.busTransfers.map scrubTransfer =
      (runSteps env2 n e).state.busTransfers.map scrubTransfer := by
  have h : scrubEngine (runSteps env1 n e) = scrubEngine (runSteps env2 n e) := by
    rw [scrub_runSteps env1 n e, scrub_runSteps env2 n e]
  exact ⟨h, congrArg (fun x => x.state.history) h,
    congrArg (fun x => x.state.cpu) h,
    congrArg (fun x => x.state.busTransfers) h⟩

end CpuSim
